import Mathlib

/-
  Shallow embedding of the UART driver in src/C_DRIVERS/UART/PeriphUart.c
  (STM32F103xB bare-metal driver).  Machine integers are modelled as Nat
  with explicit masking / `% 2^w` where the C code can overflow; the
  caller-supplied byte buffers are modelled as total functions `Nat → Nat`
  (C pointers admit out-of-bounds access, which the driver in fact
  performs; a total function lets us observe which indices are touched).
  Hardware registers read by the driver are passed in explicitly; the
  sequence of writes to the transmit data register is returned as a list.
-/

namespace Uart

/-- Ring buffer capacity `UART_RX_BUFFER_SIZE` (PeriphUart.c line 56). -/
def UART_RX_BUFFER_SIZE : Nat := 256

/-- Send timeout `UART_DEFAULT_TIMEOUT` in ticks (PeriphUart.c line 54). -/
def UART_DEFAULT_TIMEOUT : Nat := 1000

/-- The `UartInstance` enum (PeriphUart.h lines 78-87). -/
inductive UartInstance where
  | kUart1
  | kUart2
  | kUart3
deriving DecidableEq

/-- The `UartMapping` enum (PeriphUart.h lines 92-108). -/
inductive UartMapping where
  | kUart1TxPA9_RxPA10
  | kUart1TxPB6_RxPB7
  | kUart2TxPA2_RxPA3
  | kUart2TxPD5_RxPD6
  | kUart3TxPB10_RxPB11
  | kUart3TxPC10_RxPC11
  | kUart3TxPD8_RxPD9
deriving DecidableEq

/-- The C enum value of each `UartMapping` constant (PeriphUart.h lines
96-104: consecutive values starting at 0).  The driver compares mappings
as integers, so the embedding does too. -/
def UartMapping.toNat : UartMapping → Nat
  | .kUart1TxPA9_RxPA10 => 0
  | .kUart1TxPB6_RxPB7 => 1
  | .kUart2TxPA2_RxPA3 => 2
  | .kUart2TxPD5_RxPD6 => 3
  | .kUart3TxPB10_RxPB11 => 4
  | .kUart3TxPC10_RxPC11 => 5
  | .kUart3TxPD8_RxPD9 => 6

/-- The `UartHandler` struct (PeriphUart.c lines 65-76).  `m_rx` is the
receive ring buffer, modelled as a total function from index to byte. -/
structure UartHandler where
  m_isInit : Bool
  m_isLocked : Bool
  m_mapping : UartMapping
  m_rx : Nat → Nat
  m_rxTail : Nat
  m_rxHead : Nat

/-- The receive data registers of the three USART peripherals, as read by
the interrupt handlers (`USARTx->DR`). -/
structure UsartRegs where
  usart1_dr : Nat
  usart2_dr : Nat
  usart3_dr : Nat

/-- Shared body of the ring-buffer store performed by the interrupt
handlers: `m_rx[m_rxHead ++] = 0xFF & dr; m_rxHead %= UART_RX_BUFFER_SIZE;`
(PeriphUart.c lines 221-222, 249-250, 277-278).  The byte is stored at the
old head and the head advances modulo the capacity, unconditionally. -/
def bufPut (h : UartHandler) (dr : Nat) : UartHandler :=
  { h with
    m_rx := fun j => if j = h.m_rxHead then 0xFF &&& dr else h.m_rx j
    m_rxHead := (h.m_rxHead + 1) % UART_RX_BUFFER_SIZE }

/-- The `USART1_IRQHandler` (PeriphUart.c lines 211-232).  `rxne` is the
receive branch condition `USART1->SR & USART_SR_RXNE || USART1->SR &
USART_SR_ORE`; when it holds, the handler stores `0xFF & USART1->DR` at
the write cursor.  The handler sets `m_isLocked` on entry and clears it on
exit (lines 213, 231). -/
def USART1_IRQHandler (regs : UsartRegs) (rxne : Bool) (h : UartHandler) :
    UartHandler :=
  let h1 := { h with m_isLocked := true }
  let h2 := if rxne then bufPut h1 regs.usart1_dr else h1
  { h2 with m_isLocked := false }

/-- The `USART2_IRQHandler` (PeriphUart.c lines 239-260).  Note: line 249
of the source reads `USART1->DR`, not `USART2->DR`, into instance 2's ring
buffer; the embedding mirrors that. -/
def USART2_IRQHandler (regs : UsartRegs) (rxne : Bool) (h : UartHandler) :
    UartHandler :=
  let h1 := { h with m_isLocked := true }
  let h2 := if rxne then bufPut h1 regs.usart1_dr else h1
  { h2 with m_isLocked := false }

/-- The `USART3_IRQHandler` (PeriphUart.c lines 267-288).  Note: line 277
of the source reads `USART1->DR`, not `USART3->DR`, into instance 3's ring
buffer; the embedding mirrors that. -/
def USART3_IRQHandler (regs : UsartRegs) (rxne : Bool) (h : UartHandler) :
    UartHandler :=
  let h1 := { h with m_isLocked := true }
  let h2 := if rxne then bufPut h1 regs.usart1_dr else h1
  { h2 with m_isLocked := false }

/-- The `Uart_CheckRxBytes` helper (PeriphUart.c lines 195-204). -/
def Uart_CheckRxBytes (h : UartHandler) : Bool :=
  if !h.m_isInit then false
  else decide (h.m_rxTail ≠ h.m_rxHead)

/-- Result of `Uart_Read`: the updated handler, the returned count, and
the bytes actually written through `pData` in order. -/
structure ReadResult where
  handler : UartHandler
  ret : Nat
  copied : List Nat

/-- The copy loop of `Uart_Read` (PeriphUart.c lines 538-542):
`do { *(pData ++) = m_rx[m_rxTail ++]; m_rxTail %= UART_RX_BUFFER_SIZE; }
while (m_rxTail != m_rxHead);`.  Fuel-indexed; `none` means the fuel ran
out before the do-while condition failed.  Returns the copied bytes and
the final tail. -/
def readLoop (rx : Nat → Nat) (head : Nat) : Nat → Nat → Option (List Nat × Nat)
  | 0, _ => none
  | fuel + 1, tail =>
    let b := rx tail
    let tail1 := (tail + 1) % UART_RX_BUFFER_SIZE
    if tail1 = head then some ([b], tail1)
    else
      match readLoop rx head fuel tail1 with
      | none => none
      | some (bs, t) => some (b :: bs, t)

/-- The `Uart_Read` function (PeriphUart.c lines 504-546).  `pNull`
models `!pData`.  The guards (lines 507-517) return 0 without touching the
handler; otherwise the available count is computed with the wrap-aware
subtraction (lines 523-531), capped at `size` (lines 533-536), and the
do-while copy loop runs until the tail catches the head (lines 538-542).
The count returned is the capped value even though the loop's exit
condition ignores it. -/
def Uart_Read (fuel : Nat) (h : UartHandler) (pNull : Bool) (size : Nat) :
    Option ReadResult :=
  if !h.m_isInit || pNull || size == 0 || h.m_isLocked then
    some ⟨h, 0, []⟩
  else if !Uart_CheckRxBytes h then
    some ⟨h, 0, []⟩
  else
    let avail :=
      if h.m_rxHead < h.m_rxTail then
        UART_RX_BUFFER_SIZE + h.m_rxHead - h.m_rxTail
      else
        h.m_rxHead - h.m_rxTail
    let cnt := if avail > size then size else avail
    match readLoop h.m_rx h.m_rxHead fuel h.m_rxTail with
    | none => none
    | some (bs, tail1) =>
      some ⟨{ h with m_rxTail := tail1, m_isLocked := false }, cnt, bs⟩

/-- Result of `Uart_Send`: the updated handler, the boolean result, and
the bytes written to the transmit data register `DR`, in order. -/
structure SendResult where
  handler : UartHandler
  ret : Bool
  writes : List Nat

/-- The transmit do-while loop of `Uart_Send` (PeriphUart.c lines
471-482).  `txe s` is the `SR & USART_SR_TXE` flag and `tick s` the
`SysTick_GetTick()` value observed at loop iteration `s` (the pre-loop
tick sample is `tick 0` and iterations are numbered from 1, ticks being
monotone in the call sequence).  `idx` is the `uint16_t l_index` counter,
kept reduced modulo 2^16 as in the source; the loop breaks when
`l_index > size` right after a write, else re-arms the deadline and
continues while `l_endTick >= tick`.  Fuel-indexed; `none` means the fuel
ran out with the loop still running. -/
def sendLoop (txe : Nat → Bool) (tick : Nat → Nat) (data : Nat → Nat)
    (size : Nat) : Nat → Nat → Nat → Nat → List Nat →
    Option (Nat × List Nat)
  | 0, _, _, _, _ => none
  | fuel + 1, step, idx, endTick, writes =>
    if txe step then
      let b := 0xFF &&& data idx
      let idx1 := (idx + 1) % 65536
      let writes1 := writes ++ [b]
      if size < idx1 then some (idx1, writes1)
      else
        let endTick1 := UART_DEFAULT_TIMEOUT + tick step
        if tick step ≤ endTick1 then
          sendLoop txe tick data size fuel (step + 1) idx1 endTick1 writes1
        else some (idx1, writes1)
    else
      if tick step ≤ endTick then
        sendLoop txe tick data size fuel (step + 1) idx endTick writes
      else some (idx, writes)

/-- The `Uart_Send` function (PeriphUart.c lines 451-491).  `pNull`
models `!pData` and `data` the caller's buffer as a total function (the
source indexes past `size`, so out-of-bounds reads are observable).  The
guard (lines 454-458) returns false without touching the handler; the
body locks the handler, runs the transmit loop with deadline
`UART_DEFAULT_TIMEOUT + tick 0`, declares success iff `l_index > size`
(lines 484-487), and unlocks. -/
def Uart_Send (fuel : Nat) (h : UartHandler) (pNull : Bool) (size : Nat)
    (txe : Nat → Bool) (tick : Nat → Nat) (data : Nat → Nat) :
    Option SendResult :=
  if !h.m_isInit || pNull || size == 0 || h.m_isLocked then
    some ⟨h, false, []⟩
  else
    match sendLoop txe tick data size fuel 1 0
        (UART_DEFAULT_TIMEOUT + tick 0) [] with
    | none => none
    | some (idx, writes) =>
      some ⟨{ h with m_isLocked := false }, decide (size < idx), writes⟩

/-- The instance/mapping validity check of `Uart_Init` (PeriphUart.c lines
307-329): instance 1 rejects `pins >= kUart2TxPA2_RxPA3`, instance 2
rejects everything but its own two mappings, instance 3 rejects
`pins <= kUart2TxPA2_RxPA3`.  Comparisons are the C integer comparisons
on the enum values. -/
def mappingAccepted (inst : UartInstance) (pins : UartMapping) : Bool :=
  match inst with
  | .kUart1 => !decide (UartMapping.kUart2TxPA2_RxPA3.toNat ≤ pins.toNat)
  | .kUart2 =>
    !((!(pins == .kUart2TxPA2_RxPA3)) && (!(pins == .kUart2TxPD5_RxPD6)))
  | .kUart3 => !decide (pins.toNat ≤ UartMapping.kUart2TxPA2_RxPA3.toNat)

/-- The baud divider `l_baudDivider = Rcc_GetSystemClock() /
(float)l_busPrescaler / rate / 16.0f` (PeriphUart.c line 395), modelled
over the exact rationals.  At the inputs where the claims evaluate it,
every intermediate float value is exactly representable, so the rational
computation agrees with the C float computation. -/
def baudDivider (clock presc rate : Nat) : ℚ :=
  (clock : ℚ) / (presc : ℚ) / (rate : ℚ) / 16

/-- The truncation `uint32_t l_baud = (uint32_t)(l_baudDivider * 10)`
(PeriphUart.c line 396): float-to-unsigned conversion truncates toward
zero, i.e. floor on the nonnegative values that occur. -/
def l_baud (clock presc rate : Nat) : Nat :=
  (Int.floor (baudDivider clock presc rate * 10)).toNat

/-- The packing `l_baudCode = 0x0000FFFF & (((l_baud / 10) << 4) |
(l_baud % 10))` and the write `BRR = 0x0000FFFF & l_baudCode`
(PeriphUart.c lines 397-398). -/
def brrValue (clock presc rate : Nat) : Nat :=
  0xFFFF &&& (0xFFFF &&&
    (((l_baud clock presc rate / 10) <<< 4) ||| (l_baud clock presc rate % 10)))

/-- Result of `Uart_Init`: the updated handler, the boolean result, and
the value written to the baud-rate register `BRR` (`none` when the
function returned before programming the hardware). -/
structure InitResult where
  handler : UartHandler
  ret : Bool
  brr : Option Nat

/-- The `Uart_Init` function (PeriphUart.c lines 299-439), restricted to
its handler-state and baud-register effects.  `clock` is
`Rcc_GetSystemClock()`, `apb1Div`/`apb2Div` the prescalers returned by
`Rcc_GetApb1Divider`/`Rcc_GetApb2Divider`: instance 1 uses the APB2
divider, the others APB1 (lines 387-394).  On success the mapping is
saved, BRR is programmed, and `m_isInit` is set (lines 383, 398, 436). -/
def Uart_Init (h : UartHandler) (inst : UartInstance) (pins : UartMapping)
    (rate clock apb1Div apb2Div : Nat) : InitResult :=
  if h.m_isInit then ⟨h, false, none⟩
  else if !mappingAccepted inst pins then ⟨h, false, none⟩
  else
    let presc := match inst with
      | .kUart1 => apb2Div
      | .kUart2 => apb1Div
      | .kUart3 => apb1Div
    ⟨{ h with m_mapping := pins, m_isInit := true }, true,
      some (brrValue clock presc rate)⟩

/-- A zeroed handler as in the initializer of `s_uart`
(PeriphUart.c lines 78-107), with `m_isInit` set as after a successful
`Uart_Init`. -/
def initH : UartHandler :=
  { m_isInit := true
    m_isLocked := false
    m_mapping := .kUart1TxPA9_RxPA10
    m_rx := fun _ => 0
    m_rxTail := 0
    m_rxHead := 0 }

/-- Feeding a byte sequence to instance 1's receive interrupt: each byte
arrives as `USART1->DR` with the receive condition set, exactly one
`USART1_IRQHandler` invocation per byte. -/
def produce (h : UartHandler) (bs : List Nat) : UartHandler :=
  bs.foldl (fun h b => USART1_IRQHandler ⟨b, 0, 0⟩ true h) h


/-
  Concrete fixtures used by the claim theorems.
-/

/-- A freshly initialized, unlocked handler whose ring buffer holds the
two unread bytes 10 and 11 (tail 0, head 2), as after two receive
interrupts delivered them. -/
def twoByteH : UartHandler :=
  { m_isInit := true
    m_isLocked := false
    m_mapping := .kUart1TxPA9_RxPA10
    m_rx := fun i => i + 10
    m_rxTail := 0
    m_rxHead := 2 }

/-- An uninitialized handler, as in the initializer of `s_uart`
(PeriphUart.c lines 78-107). -/
def freshH : UartHandler :=
  { m_isInit := false
    m_isLocked := false
    m_mapping := .kUart1TxPA9_RxPA10
    m_rx := fun _ => 0
    m_rxTail := 0
    m_rxHead := 0 }

/-- A handler whose ring buffer is full in the reserved-slot sense:
advancing the write cursor once more makes it equal to the read cursor. -/
def fullH : UartHandler :=
  { m_isInit := true
    m_isLocked := false
    m_mapping := .kUart1TxPA9_RxPA10
    m_rx := fun _ => 0
    m_rxTail := 1
    m_rxHead := 0 }

/-- An initialized handler whose locked flag is set, as during a
concurrent operation. -/
def lockedH : UartHandler :=
  { m_isInit := true
    m_isLocked := true
    m_mapping := .kUart1TxPA9_RxPA10
    m_rx := fun _ => 0
    m_rxTail := 0
    m_rxHead := 0 }

/-- C1: the claim says a `read` with `maxLen < n` available bytes copies
exactly `maxLen` bytes, advances the read cursor by `maxLen`, and leaves
`n - maxLen` bytes available.  The code computes the capped count but the
copy loop's exit condition ignores it (PeriphUart.c line 542 exits only
when the tail catches the head): with n = 2 available bytes and
maxLen = 1 the call returns 1 yet writes both bytes through `pData`
(overrunning the caller's 1-byte buffer) and advances the tail all the
way to the head, leaving 0 bytes — not 1 — for the next read. -/
theorem uartRead_partial_read_drains_buffer :
    Uart_Read 256 twoByteH false 1 =
      some ⟨{ twoByteH with m_rxTail := 2, m_isLocked := false }, 1, [10, 11]⟩ ∧
    ([10, 11].length ≠ 1 ∧ twoByteH.m_rxHead = 2) := by
  exact ⟨rfl, by decide, rfl⟩

/-- C2: the claim says `send` of length L with always-empty transmit
hardware performs exactly L register writes, from indices 0 through L-1.
The code's `if (l_index > size) break` sits after the post-increment
(PeriphUart.c lines 475-479), so for L = 1 it performs two writes to `DR`,
the second taken from `pData[1]`, one past the end of the caller's
buffer; the call still reports success. -/
theorem uartSend_writes_one_past_end :
    Uart_Send 10 initH false 1 (fun _ => true) (fun s => s)
        (fun i => 100 + i) =
      some ⟨{ initH with m_isLocked := false }, true, [100, 101]⟩ ∧
    [100, 101].length ≠ 1 := by
  exact ⟨rfl, by decide⟩

/-- C3: the claim says each instance's receive interrupt handler reads
that same instance's data register and is the only reader of it.  In the
source, `USART2_IRQHandler` (PeriphUart.c line 249) and `USART3_IRQHandler`
(line 277) both read `USART1->DR`: with the three data registers holding
0xAA, 0x55, 0x33, both handlers store 0xAA — instance 1's byte — into
their own ring buffers, and neither stores its own register's value. -/
theorem usart23_handlers_read_usart1_dr :
    (USART2_IRQHandler ⟨0xAA, 0x55, 0x33⟩ true initH).m_rx 0 = 0xAA ∧
    (USART3_IRQHandler ⟨0xAA, 0x55, 0x33⟩ true initH).m_rx 0 = 0xAA ∧
    (0xAA : Nat) ≠ 0x55 ∧ (0xAA : Nat) ≠ 0x33 := by
  exact ⟨rfl, rfl, by decide, by decide⟩

/-- C4: the claim says every (instance, mapping) pair whose mapping lies
in a different instance's legal subset is rejected.  Instance 3's check
`if (pins <= kUart2TxPA2_RxPA3) return false` (PeriphUart.c line 324)
uses `<=`, so instance 2's mapping `kUart2TxPD5_RxPD6` (enum value 3)
slips through: `Uart_Init` on an uninitialized channel accepts it,
returns true and marks the channel initialized. -/
theorem uartInit_accepts_foreign_mapping :
    (Uart_Init freshH .kUart3 .kUart2TxPD5_RxPD6 9600 48000000 1 1).ret
        = true ∧
    (Uart_Init freshH .kUart3 .kUart2TxPD5_RxPD6 9600 48000000
        1 1).handler.m_isInit = true ∧
    UartMapping.kUart2TxPD5_RxPD6 ≠ UartMapping.kUart3TxPB10_RxPB11 := by
  exact ⟨rfl, rfl, by decide⟩

/-- Helper: the baud divider of the C5 scenario is exactly 312.5. -/
theorem baudDivider_9600_at_48MHz : baudDivider 48000000 1 9600 = 625 / 2 := by
  norm_num [baudDivider]

/-- Helper: the truncated value `l_baud` of the C5 scenario is 3125. -/
theorem l_baud_9600_at_48MHz : l_baud 48000000 1 9600 = 3125 := by
  have h : baudDivider 48000000 1 9600 * 10 = (3125 : ℚ) := by
    norm_num [baudDivider]
  rw [l_baud, h]
  norm_num
  decide

/-- C5: the claim says the value written to BRR packs mantissa 312 with
fraction round(0.5 x 16) = 8, i.e. 312*16 + 8 = 5000 = 0x1388.  The code
multiplies the divider by 10 and packs the decimal tenths digit
(PeriphUart.c lines 396-397): `l_baud = 3125`, giving
`(312 << 4) | 5 = 4997 = 0x1385`.  The computed divider is indeed 312.5,
but the packed fraction is 5, not 8. -/
theorem brr_fraction_packed_as_decimal_digit :
    baudDivider 48000000 1 9600 = 625 / 2 ∧
    brrValue 48000000 1 9600 = 4997 ∧
    (4997 : Nat) ≠ 312 * 16 + 8 := by
  refine ⟨baudDivider_9600_at_48MHz, ?_, by decide⟩
  have h : l_baud 48000000 1 9600 = 3125 := l_baud_9600_at_48MHz
  rw [brrValue, h]
  decide

/-- C8: `Uart_Read` returns 0 bytes and leaves the handler (both
cursors included) untouched in every one of the cases: channel
uninitialized, channel locked, null output buffer, zero `maxLen`, and
read cursor equal to write cursor — all indistinguishable to the caller
(PeriphUart.c lines 507-517 and 195-204). -/
theorem uartRead_zero_cases (fuel : Nat) (h : UartHandler) (pNull : Bool)
    (size : Nat)
    (hc : h.m_isInit = false ∨ h.m_isLocked = true ∨ pNull = true ∨ size = 0 ∨
      h.m_rxTail = h.m_rxHead) :
    Uart_Read fuel h pNull size = some ⟨h, 0, []⟩ := by
  by_cases hg : (!h.m_isInit || pNull || size == 0 || h.m_isLocked) = true
  · simp only [Uart_Read, hg, if_true]
  · rcases hc with hc | hc | hc | hc | hc
    · simp [hc] at hg
    · simp [hc] at hg
    · simp [hc] at hg
    · simp [hc] at hg
    · simp only [Bool.not_eq_true] at hg
      simp only [Uart_Read, hg, Bool.false_eq_true, if_false,
        Uart_CheckRxBytes, hc]
      simp

/-- C9: for every ring-buffer state — including a full buffer, where
advancing the write cursor makes it equal to the read cursor — the
receive-interrupt producer unconditionally stores the incoming byte at
the write cursor and advances it modulo the capacity while never moving
the read cursor; there is no full check, no reserved slot, and the
handler returns nothing, so the overwrite is silent
(PeriphUart.c lines 217-223). -/
theorem producer_overwrites_silently (h : UartHandler) (regs : UsartRegs) :
    (USART1_IRQHandler regs true h).m_rx h.m_rxHead = 0xFF &&& regs.usart1_dr ∧
    (USART1_IRQHandler regs true h).m_rxHead
        = (h.m_rxHead + 1) % UART_RX_BUFFER_SIZE ∧
    (USART1_IRQHandler regs true h).m_rxTail = h.m_rxTail ∧
    (h.m_rxTail = (h.m_rxHead + 1) % UART_RX_BUFFER_SIZE →
      (USART1_IRQHandler regs true h).m_rxHead
        = (USART1_IRQHandler regs true h).m_rxTail) := by
  refine ⟨?_, rfl, rfl, ?_⟩
  · simp [USART1_IRQHandler, bufPut]
  · intro hfull
    simp [USART1_IRQHandler, bufPut, hfull]

/-- Witness for C9 at a concretely full buffer (tail 1, head 0). -/
theorem producer_overwrites_silently_witness :
    fullH.m_rxTail = (fullH.m_rxHead + 1) % UART_RX_BUFFER_SIZE ∧
    (USART1_IRQHandler ⟨7, 0, 0⟩ true fullH).m_rxHead
        = (USART1_IRQHandler ⟨7, 0, 0⟩ true fullH).m_rxTail :=
  ⟨by decide, (producer_overwrites_silently fullH ⟨7, 0, 0⟩).2.2.2 (by decide)⟩

/-- C10: every operation that sets the locked flag clears it on every
path that set it: the interrupt handlers always return with the flag
clear, and a `read` or `send` that starts on an unlocked channel
finishes with the flag clear on every completing path; a `read` or
`send` that returns early because the flag was set returns the handler
state completely unchanged (PeriphUart.c lines 213/231, 241/259,
269/287, 462/488, 521/543). -/
theorem lock_flag_discipline (fuel size : Nat) (h : UartHandler)
    (regs : UsartRegs) (rxne pNull : Bool) (txe : Nat → Bool)
    (tick : Nat → Nat) (data : Nat → Nat) :
    (USART1_IRQHandler regs rxne h).m_isLocked = false ∧
    (USART2_IRQHandler regs rxne h).m_isLocked = false ∧
    (USART3_IRQHandler regs rxne h).m_isLocked = false ∧
    (h.m_isLocked = false → ∀ r, Uart_Read fuel h pNull size = some r →
        r.handler.m_isLocked = false) ∧
    (h.m_isLocked = false →
        ∀ r, Uart_Send fuel h pNull size txe tick data = some r →
        r.handler.m_isLocked = false) ∧
    (h.m_isLocked = true → Uart_Read fuel h pNull size = some ⟨h, 0, []⟩) ∧
    (h.m_isLocked = true →
        Uart_Send fuel h pNull size txe tick data = some ⟨h, false, []⟩) := by
  refine ⟨rfl, rfl, rfl, ?_, ?_, ?_, ?_⟩
  · intro hl r hr
    unfold Uart_Read at hr
    split at hr
    · obtain rfl : (⟨h, 0, []⟩ : ReadResult) = r := by injection hr
      exact hl
    · split at hr
      · obtain rfl : (⟨h, 0, []⟩ : ReadResult) = r := by injection hr
        exact hl
      · cases hm : readLoop h.m_rx h.m_rxHead fuel h.m_rxTail with
        | none =>
          simp only [hm] at hr
          exact absurd hr (by simp)
        | some p =>
          obtain ⟨bs, tail1⟩ := p
          simp only [hm] at hr
          obtain rfl : _ = r := by injection hr
          rfl
  · intro hl r hr
    unfold Uart_Send at hr
    split at hr
    · obtain rfl : (⟨h, false, []⟩ : SendResult) = r := by injection hr
      exact hl
    · cases hm : sendLoop txe tick data size fuel 1 0
          (UART_DEFAULT_TIMEOUT + tick 0) [] with
      | none =>
        simp only [hm] at hr
        exact absurd hr (by simp)
      | some p =>
        obtain ⟨idx, writes⟩ := p
        simp only [hm] at hr
        obtain rfl : _ = r := by injection hr
        rfl
  · intro hl
    simp [Uart_Read, hl]
  · intro hl
    simp [Uart_Send, hl]

/-- Witness for C10: a read on a locked handler returns zero and the
unchanged handler. -/
theorem lock_flag_discipline_witness :
    Uart_Read 4 lockedH false 3 = some ⟨lockedH, 0, []⟩ :=
  (lock_flag_discipline 4 3 lockedH ⟨0, 0, 0⟩ false false (fun _ => true)
    (fun s => s) (fun _ => 0)).2.2.2.2.2.1 rfl

/-- Witness for C8 at the empty-buffer case: read on a fresh initialized
handler returns zero and the unchanged handler. -/
theorem uartRead_zero_cases_witness :
    Uart_Read 9 initH false 4 = some ⟨initH, 0, []⟩ :=
  uartRead_zero_cases 9 initH false 4 (Or.inr (Or.inr (Or.inr (Or.inr rfl))))

/-- Helper: with transmit-empty never signalled and ticks advancing by one
per loop iteration, the send loop exits, writing nothing, at the first
iteration whose tick exceeds the deadline. -/
theorem sendLoop_neverTXE_terminates (data : Nat → Nat) (size t0 : Nat) :
    ∀ (k step fuel idx endTick : Nat) (writes : List Nat),
      t0 + step + k = endTick + 1 → k + 1 ≤ fuel →
      sendLoop (fun _ => false) (fun s => t0 + s) data size fuel step idx
          endTick writes = some (idx, writes) := by
  intro k
  induction k with
  | zero =>
    intro step fuel idx endTick writes hk hf
    obtain ⟨f, rfl⟩ : ∃ f, fuel = f + 1 := ⟨fuel - 1, by omega⟩
    unfold sendLoop
    simp only [Bool.false_eq_true, if_false]
    rw [if_neg (by omega)]
  | succ k ih =>
    intro step fuel idx endTick writes hk hf
    obtain ⟨f, rfl⟩ : ∃ f, fuel = f + 1 := ⟨fuel - 1, by omega⟩
    unfold sendLoop
    simp only [Bool.false_eq_true, if_false]
    rw [if_pos (by omega)]
    exact ih (step + 1) f idx endTick writes (by omega) (by omega)

/-- Helper: with transmit-empty never signalled, the send loop is still
running after any number of iterations whose ticks are all within the
deadline. -/
theorem sendLoop_neverTXE_spins (data : Nat → Nat) (size t0 : Nat) :
    ∀ (fuel step idx endTick : Nat) (writes : List Nat),
      t0 + step + fuel ≤ endTick + 1 →
      sendLoop (fun _ => false) (fun s => t0 + s) data size fuel step idx
          endTick writes = none := by
  intro fuel
  induction fuel with
  | zero =>
    intro step idx endTick writes hle
    rfl
  | succ f ih =>
    intro step idx endTick writes hle
    unfold sendLoop
    simp only [Bool.false_eq_true, if_false]
    rw [if_pos (by omega)]
    exact ih (step + 1) idx endTick writes (by omega)

/-- C7: with hardware that never reports transmit-data-register-empty,
`send` on an initialized, unlocked channel with a non-null buffer of any
positive length returns failure having performed zero (hence at most one)
data-register writes, and it does so after approximately one timeout
interval: with ticks advancing one per loop iteration from start tick t0
and deadline t0 + 1000 (`UART_DEFAULT_TIMEOUT`), the loop completes
within 1001 iterations and is still spinning after 1000. -/
theorem uartSend_timeout (h : UartHandler) (size t0 : Nat) (data : Nat → Nat)
    (hinit : h.m_isInit = true) (hlock : h.m_isLocked = false)
    (hsz : 0 < size) :
    Uart_Send 1001 h false size (fun _ => false) (fun s => t0 + s) data =
      some ⟨{ h with m_isLocked := false }, false, []⟩ ∧
    Uart_Send 1000 h false size (fun _ => false) (fun s => t0 + s) data =
      none := by
  have hguard : (!h.m_isInit || false || size == 0 || h.m_isLocked) = false := by
    simp [hinit, hlock]
    omega
  constructor
  · unfold Uart_Send
    rw [hguard]
    simp only [Bool.false_eq_true, if_false]
    rw [sendLoop_neverTXE_terminates data size t0 1000 1 1001 0
      (UART_DEFAULT_TIMEOUT + (t0 + 0)) [] (by simp only [UART_DEFAULT_TIMEOUT]; omega) (by omega)]
    simp
  · unfold Uart_Send
    rw [hguard]
    simp only [Bool.false_eq_true, if_false]
    rw [sendLoop_neverTXE_spins data size t0 1000 1 0
      (UART_DEFAULT_TIMEOUT + (t0 + 0)) [] (by simp only [UART_DEFAULT_TIMEOUT]; omega)]

/-- Witness for C7 at a concrete channel, length 5, start tick 0. -/
theorem uartSend_timeout_witness :
    Uart_Send 1001 initH false 5 (fun _ => false) (fun s => 0 + s)
        (fun _ => 7) =
      some ⟨{ initH with m_isLocked := false }, false, []⟩ ∧
    Uart_Send 1000 initH false 5 (fun _ => false) (fun s => 0 + s)
        (fun _ => 7) = none :=
  uartSend_timeout initH 5 0 (fun _ => 7) rfl rfl (by decide)


/-- Helper: masking with 0xFF is the identity on bytes below 256. -/
theorem mask255_of_lt (b : Nat) (hb : b < 256) : 0xFF &&& b = b := by
  rw [Nat.and_comm]
  have h := Nat.and_pow_two_sub_one_of_lt_two_pow (x := b) (n := 8) (by omega)
  norm_num at h
  exact h

/-- Helper: feeding a byte list through the receive-interrupt producer
(no wrap-around) appends the masked bytes at successive positions from
the old write cursor, advances the write cursor by the list length,
and leaves the read cursor, the init flag and the bytes below the old
write cursor unchanged. -/
theorem produce_spec (bs : List Nat) :
    ∀ (h : UartHandler), h.m_rxHead + bs.length ≤ 255 →
      (produce h bs).m_isInit = h.m_isInit ∧
      (produce h bs).m_rxTail = h.m_rxTail ∧
      (produce h bs).m_rxHead = h.m_rxHead + bs.length ∧
      ((produce h bs).m_isLocked = h.m_isLocked ∨
        (produce h bs).m_isLocked = false) ∧
      (∀ i, i < bs.length →
        (produce h bs).m_rx (h.m_rxHead + i) = 0xFF &&& bs.getD i 0) ∧
      (∀ j, j < h.m_rxHead → (produce h bs).m_rx j = h.m_rx j) := by
  induction bs with
  | nil =>
    intro h _
    refine ⟨rfl, rfl, by simp [produce], Or.inl rfl, ?_, ?_⟩
    · intro i hi
      exact absurd hi (by simp)
    · intro j _
      rfl
  | cons b bs ih =>
    intro h hle
    have hheadlt : h.m_rxHead + 1 < UART_RX_BUFFER_SIZE := by
      simp only [UART_RX_BUFFER_SIZE]
      simp only [List.length_cons] at hle
      omega
    set h1 : UartHandler := USART1_IRQHandler ⟨b, 0, 0⟩ true h with hh1
    have hrx1 : h1.m_rx = fun j =>
        if j = h.m_rxHead then 0xFF &&& b else h.m_rx j := rfl
    have hhead1 : h1.m_rxHead = h.m_rxHead + 1 := by
      show (h.m_rxHead + 1) % UART_RX_BUFFER_SIZE = h.m_rxHead + 1
      exact Nat.mod_eq_of_lt hheadlt
    have htail1 : h1.m_rxTail = h.m_rxTail := rfl
    have hinit1 : h1.m_isInit = h.m_isInit := rfl
    have hfold : produce h (b :: bs) = produce h1 bs := rfl
    have hle1 : h1.m_rxHead + bs.length ≤ 255 := by
      rw [hhead1]
      simp only [List.length_cons] at hle
      omega
    obtain ⟨i1, i2, i3, i4, i5, i6⟩ := ih h1 hle1
    refine ⟨?_, ?_, ?_, ?_, ?_, ?_⟩
    · rw [hfold, i1, hinit1]
    · rw [hfold, i2, htail1]
    · rw [hfold, i3, hhead1]
      simp only [List.length_cons]
      omega
    · rw [hfold]
      rcases i4 with i4 | i4
      · right
        rw [i4]
        rfl
      · right
        exact i4
    · intro i hi
      rw [hfold]
      match i with
      | 0 =>
        have hj : h.m_rxHead + 0 < h1.m_rxHead := by omega
        rw [i6 (h.m_rxHead + 0) hj, hrx1]
        simp
      | Nat.succ i =>
        have hi2 : i < bs.length := by
          simp only [List.length_cons] at hi
          omega
        have := i5 i hi2
        rw [hhead1] at this
        rw [show h.m_rxHead + (i + 1) = h.m_rxHead + 1 + i from by omega, this]
        rfl
    · intro j hj
      rw [hfold, i6 j (by omega), hrx1]
      simp only
      rw [if_neg (by omega)]

/-- Helper: when the region from tail to head does not wrap, the read
copy loop drains exactly the bytes from tail (inclusive) to head
(exclusive), in order, leaving the tail equal to the head. -/
theorem readLoop_no_wrap (rx : Nat → Nat) :
    ∀ (d tail fuel : Nat), tail + d + 1 ≤ 255 → d + 1 ≤ fuel →
      readLoop rx (tail + d + 1) fuel tail =
        some ((List.range (d + 1)).map (fun i => rx (tail + i)),
          tail + d + 1) := by
  intro d
  induction d with
  | zero =>
    intro tail fuel h255 hf
    obtain ⟨f, rfl⟩ : ∃ f, fuel = f + 1 := ⟨fuel - 1, by omega⟩
    unfold readLoop
    rw [show (tail + 1) % UART_RX_BUFFER_SIZE = tail + 1 from
      Nat.mod_eq_of_lt (by simp only [UART_RX_BUFFER_SIZE]; omega)]
    simp [List.range_succ]
  | succ d ih =>
    intro tail fuel h255 hf
    obtain ⟨f, rfl⟩ : ∃ f, fuel = f + 1 := ⟨fuel - 1, by omega⟩
    unfold readLoop
    rw [show (tail + 1) % UART_RX_BUFFER_SIZE = tail + 1 from
      Nat.mod_eq_of_lt (by simp only [UART_RX_BUFFER_SIZE]; omega)]
    rw [if_neg (by omega)]
    have hrec := ih (tail + 1) f (by omega) (by omega)
    rw [show tail + (d + 1) + 1 = tail + 1 + d + 1 from by omega, hrec]
    have hfuneq : (fun i => rx (tail + 1 + i)) = fun i => rx (tail + (i + 1)) := by
      funext i
      congr 1
      omega
    rw [hfuneq]
    have hlist : (List.range (d + 1 + 1)).map (fun i => rx (tail + i)) =
        rx tail :: (List.range (d + 1)).map (fun i => rx (tail + (i + 1))) := by
      rw [List.range_succ_eq_map]
      simp [List.map_map, Function.comp_def]
    rw [hlist]

/-- C6: round-trip.  Every nonempty byte sequence shorter than the buffer
capacity, appended by the receive-interrupt producer to an initially
empty ring buffer, is returned by a single `read` with `maxLen` at least
the sequence length as exactly that count of bytes, copied to the
caller's buffer in the same order. -/
theorem uartRead_roundTrip (bs : List Nat) (size : Nat)
    (hne : 0 < bs.length) (hlen : bs.length ≤ 255) (hsize : bs.length ≤ size)
    (hbytes : ∀ b ∈ bs, b < 256) :
    ∃ r, Uart_Read 256 (produce initH bs) false size = some r ∧
      r.ret = bs.length ∧ r.copied = bs := by
  obtain ⟨hInit, hTail, hHead, hLock, hRx, _⟩ :=
    produce_spec bs initH (by simp only [initH]; omega)
  set P := produce initH bs with hP
  have hInit2 : P.m_isInit = true := hInit
  have hTail2 : P.m_rxTail = 0 := hTail
  have hHead2 : P.m_rxHead = bs.length := by
    rw [hHead]
    simp [initH]
  have hLock2 : P.m_isLocked = false := by
    rcases hLock with hl | hl
    · rw [hl]
      rfl
    · exact hl
  have hguard : (!P.m_isInit || false || size == 0 || P.m_isLocked) = false := by
    simp [hInit2, hLock2]
    omega
  have hchk : (!Uart_CheckRxBytes P) = false := by
    simp only [Uart_CheckRxBytes, hInit2, Bool.not_true, Bool.false_eq_true,
      if_false, hTail2, hHead2]
    simp
    omega
  obtain ⟨d, hd⟩ : ∃ d, bs.length = d + 1 := ⟨bs.length - 1, by omega⟩
  have hloop : readLoop P.m_rx bs.length 256 0 =
      some ((List.range (d + 1)).map (fun i => P.m_rx (0 + i)), bs.length) := by
    have hl := readLoop_no_wrap P.m_rx d 0 256 (by omega) (by omega)
    rw [show (0 : Nat) + d + 1 = bs.length from by omega] at hl
    exact hl
  have hcopied : (List.range (d + 1)).map (fun i => P.m_rx (0 + i)) = bs := by
    apply List.ext_getElem
    · simp [hd]
    · intro i h1 h2
      simp only [List.getElem_map, List.getElem_range]
      have hilt : i < bs.length := h2
      have hrxi := hRx i hilt
      rw [show initH.m_rxHead + i = 0 + i from by simp [initH]] at hrxi
      rw [hrxi, List.getD_eq_getElem bs 0 hilt]
      exact mask255_of_lt _ (hbytes _ (List.getElem_mem hilt))
  have heq : Uart_Read 256 P false size =
      some ⟨{ P with m_rxTail := bs.length, m_isLocked := false },
        bs.length, bs⟩ := by
    unfold Uart_Read
    rw [hguard]
    simp only [Bool.false_eq_true, if_false]
    rw [hchk]
    simp only [Bool.false_eq_true, if_false]
    simp only [hTail2, hHead2, hloop, Nat.sub_zero, Nat.not_lt_zero, if_false]
    rw [hcopied]
    rw [if_neg (by omega)]
  exact ⟨_, heq, rfl, rfl⟩

/-- Witness for C6 on the concrete sequence [1, 2, 3] with maxLen 8. -/
theorem uartRead_roundTrip_witness :
    ∃ r, Uart_Read 256 (produce initH [1, 2, 3]) false 8 = some r ∧
      r.ret = 3 ∧ r.copied = [1, 2, 3] :=
  uartRead_roundTrip [1, 2, 3] 8 (by decide) (by decide) (by decide)
    (by decide)

end Uart
